import Mathlib

/-!
# Verification of the SMA crossover alert script (EabcMabcA.py)

A shallow embedding of the script's core logic: the rolling-mean indicator
(`add_sma`), the crossover detector with its dedup cache (`detect_sma_cross`),
the alert formatting, the Telegram chunked senders, and the top-level
exception handler.  Prices are modelled as rationals; a float `NaN` indicator
value (the pandas warm-up gap) is modelled as `Option.none`, matching Python's
semantics that every comparison against `NaN` is false.  Text is modelled as
`String`, with the character-level chunking loop modelled on `List Char`.
-/

set_option autoImplicit false

namespace EabcMabcA

/-- One OHLCV row of the candle dataframe (field names follow the
dataframe columns).  The timestamp is kept abstract as an integer epoch
value; timezone conversion is an I/O concern of `fetch_candles`. -/
structure Bar where
  Timestamp : Int
  Open : ℚ
  High : ℚ
  Low : ℚ
  Close : ℚ
  Volume : ℚ
  deriving Repr, DecidableEq

instance : Inhabited Bar := ⟨⟨0, 0, 0, 0, 0, 0⟩⟩

/-! ## Indicator Calculator -/

/-- `df["Close"].rolling(window=p).mean()` evaluated at row `i`:
`NaN` (here `none`) while fewer than `p` rows are available, otherwise the
mean of the `p` closes ending at row `i`. -/
def smaAt (closes : List ℚ) (p i : ℕ) : Option ℚ :=
  if i + 1 < p then none
  else some (((closes.drop (i + 1 - p)).take p).sum / (p : ℚ))

/-- `add_sma`: the whole rolling-mean column `SMA_p` for one period,
aligned index-for-index with the closes. -/
def add_sma (closes : List ℚ) (p : ℕ) : List (Option ℚ) :=
  (List.range closes.length).map (smaAt closes p)

/-- The `SMA_p` columns of a dataframe evaluated at its last row, as produced
by `add_sma` in the main loop before `detect_sma_cross` reads them. -/
def smaColsOf (bars : List Bar) : ℕ → Option ℚ :=
  fun p => smaAt (bars.map Bar.Close) p (bars.length - 1)

/-- Modelled from the spec: the EXPONENTIAL indicator kind.  The EMA variant
scripts are not present under `src/`; per the spec, `value[0] = close[0]` and
`value[i] = α·close[i] + (1-α)·value[i-1]` with `α = 2/(period+1)`, defined at
every index.  Implemented as a scan carrying the previous value. -/
def emaScan (a prev : ℚ) : List ℚ → List ℚ
  | [] => []
  | c :: cs => (a * c + (1 - a) * prev) :: emaScan a (a * c + (1 - a) * prev) cs

/-- Modelled from the spec: the EXPONENTIAL indicator column for period `p`
over a closing-price sequence (see `emaScan`). -/
def add_ema (closes : List ℚ) (p : ℕ) : List ℚ :=
  match closes with
  | [] => []
  | c :: cs => c :: emaScan (2 / ((p : ℚ) + 1)) c cs

/-! ## Telegram senders -/

/-- `TELEGRAM_LIMIT = 4000`, the maximum message length per delivered chunk. -/
def TELEGRAM_LIMIT : ℕ := 4000

/-- Python's `sep.join(messages)`. -/
def pyJoin (sep : String) : List String → String
  | [] => ""
  | [m] => m
  | m :: ms => m ++ sep ++ pyJoin sep ms

/-- The `while combined:` loop shared by both senders: repeatedly slice off
the first `TELEGRAM_LIMIT` characters until the text is exhausted, returning
the chunks in delivery order. -/
def chunkLoop (combined : List Char) : List (List Char) :=
  if h : combined = [] then []
  else
    combined.take TELEGRAM_LIMIT :: chunkLoop (combined.drop TELEGRAM_LIMIT)
termination_by combined.length
decreasing_by
  simp only [List.length_drop, TELEGRAM_LIMIT]
  have : 0 < combined.length := List.length_pos.mpr h
  omega

/-- `safe_send_telegram_bulk_logs`: joins with a single newline and delivers
the chunks; delivers nothing when Telegram credentials are missing
(`configured = false`).  The network call itself is external; the function
returns the list of delivered chunk payloads. -/
def safe_send_telegram_bulk_logs (configured : Bool) (messages : List String) :
    List (List Char) :=
  if configured then chunkLoop (pyJoin "\n" messages).toList else []

/-- `safe_send_telegram_bulk_alerts`: joins with a blank line (two newlines)
and delivers the chunks; delivers nothing when Telegram credentials are
missing. -/
def safe_send_telegram_bulk_alerts (configured : Bool) (messages : List String) :
    List (List Char) :=
  if configured then chunkLoop (pyJoin "\n\n" messages).toList else []

/-! ## Crossover Detector

`detect_sma_cross(df, periods, symbol, tf)` reads the dataframe's last two
rows and, per period, the `SMA_p` column at the last row.  The `sma` cell is a
float that is `NaN` during warm-up; Python's chained comparisons
`a < sma < b` are false whenever `sma` is `NaN`, which the `Option` match
reproduces. -/

/-- One chained strict comparison of the source,
`(a < sma < b) or (a > sma > b)`; false when `sma` is undefined (`NaN`). -/
def crossedStrict (a : ℚ) (sma : Option ℚ) (b : ℚ) : Bool :=
  match sma with
  | none => false
  | some s => (decide (a < s) && decide (s < b)) || (decide (a > s) && decide (s > b))

/-- `crossed_prev`: the indicator value straddled by the previous bar's
open/close range. -/
def crossed_prev (prev : Bar) (sma : Option ℚ) : Bool :=
  crossedStrict prev.Open sma prev.Close

/-- `crossed_last`: the indicator value straddled by the last bar's
open/close range. -/
def crossed_last (last : Bar) (sma : Option ℚ) : Bool :=
  crossedStrict last.Open sma last.Close

/-- `crossed_gap`: the indicator value straddled by the gap from the previous
bar's close to the last bar's open. -/
def crossed_gap (prev last : Bar) (sma : Option ℚ) : Bool :=
  crossedStrict prev.Close sma last.Open

/-- `trend = "Bullish" if last["Close"] > sma else "Bearish"`. -/
def trend (last : Bar) (s : ℚ) : String :=
  if last.Close > s then "Bullish" else "Bearish"

/-- `gap_info = " (Gap detected)" if crossed_gap else ""`. -/
def gap_info (g : Bool) : String :=
  if g then " (Gap detected)" else ""

/-- The dedup key `f"{symbol}_{tf}_SMA{p}"`. -/
def key (symbol tf : String) (p : ℕ) : String :=
  symbol ++ "_" ++ tf ++ "_SMA" ++ toString p

/-- Timestamp renderings `ts_24`/`ts_12`.  The source formats the bar
timestamp with strftime (`"%Y-%m-%d %H:%M:%S"` and the 12-hour variant);
calendar formatting is a datetime-library concern, modelled as a plain
decimal rendering.  No claim depends on the concrete rendering. -/
def ts_24 (t : Int) : String := toString t

/-- The 12-hour timestamp rendering; see `ts_24`. -/
def ts_12 (t : Int) : String := toString t

/-- Python's `f"{x:.2f}"`, modelled on rationals: the value rounded to
hundredths, printed with exactly two decimal digits. -/
def fmt2 (x : ℚ) : String :=
  let n : Int := round (x * 100)
  (if n < 0 then "-" else "")
    ++ toString (n.natAbs / 100) ++ "."
    ++ (if n.natAbs % 100 < 10 then "0" else "") ++ toString (n.natAbs % 100)

/-- The detected crossing, before formatting: the data the alert message is
rendered from (the spec's `CrossoverEvent`). -/
structure CrossoverEvent where
  symbol : String
  tf : String
  period : ℕ
  trendLabel : String
  gapFlag : Bool
  lastBar : Bar
  smaValue : ℚ
  deriving Repr, DecidableEq

/-- The alert message `msg` of the source, rendered from a detected
crossing. -/
def renderEvent (e : CrossoverEvent) : String :=
  (if e.trendLabel = "Bullish" then "📈" else "📉") ++ " " ++ e.symbol
    ++ " | " ++ e.tf ++ "m\n"
    ++ "🕒 " ++ ts_12 e.lastBar.Timestamp ++ " / " ++ ts_24 e.lastBar.Timestamp ++ "\n"
    ++ "Cross " ++ (if e.trendLabel = "Bullish" then "ABOVE" else "BELOW")
    ++ " SMA" ++ toString e.period ++ " " ++ e.trendLabel ++ gap_info e.gapFlag ++ "\n"
    ++ "Close: " ++ fmt2 e.lastBar.Close ++ " | SMA: " ++ fmt2 e.smaValue

/-- The module-level mutable state the script threads through a run: the
queued log lines, the queued alert messages, and the dedup cache
(`all_logs`, `all_alerts`, `alert_cache`).  The Python cache is a `set`;
it is modelled as a list used as a set (keys are only inserted when absent,
so membership agrees). -/
structure AlertState where
  all_logs : List String
  all_alerts : List String
  alert_cache : List String
  deriving Repr, DecidableEq

/-- `log_and_queue`: queue a log line (the wall-clock prefix the source adds
is dropped; no claim depends on it). -/
def log_and_queue (msg : String) (st : AlertState) : AlertState :=
  { st with all_logs := st.all_logs ++ [msg] }

/-- `warn`: queue a warning into the alert batch. -/
def warn (msg : String) (st : AlertState) : AlertState :=
  { st with all_alerts := st.all_alerts ++ ["⚠️ WARNING: " ++ msg] }

/-- `error`: queue an error into the alert batch. -/
def error (msg : String) (st : AlertState) : AlertState :=
  { st with all_alerts := st.all_alerts ++ ["❌ ERROR: " ++ msg] }

/-- The per-period evaluation inside `detect_sma_cross`'s `for p in periods`
loop, split out as the event it produces (if any): skip when the dedup key is
cached, evaluate the three boundary tests, and on a crossing build the event
the message is rendered from.  A `NaN` (`none`) indicator value fails every
test, so the inner `none` branch is unreachable. -/
def detectPeriodEvent (symbol tf : String) (prev last : Bar) (sma : Option ℚ)
    (p : ℕ) (cache : List String) : Option CrossoverEvent :=
  if key symbol tf p ∈ cache then none
  else if crossed_prev prev sma || crossed_last last sma || crossed_gap prev last sma then
    match sma with
    | some s =>
        some { symbol := symbol, tf := tf, period := p,
               trendLabel := trend last s,
               gapFlag := crossed_gap prev last (some s),
               lastBar := last, smaValue := s }
    | none => none
  else none

/-- The state effect of one `for p in periods` iteration: on a crossing,
append the rendered message to `all_alerts` and record the key in
`alert_cache`. -/
def detectPeriodStep (symbol tf : String) (prev last : Bar) (sma : Option ℚ)
    (p : ℕ) (st : AlertState) : AlertState :=
  match detectPeriodEvent symbol tf prev last sma p st.alert_cache with
  | none => st
  | some e =>
      { st with all_alerts := st.all_alerts ++ [renderEvent e],
                alert_cache := st.alert_cache ++ [key symbol tf p] }

/-- `detect_sma_cross(df, periods, symbol, tf)`: warn and return when the
dataframe is missing or has fewer than 2 rows, otherwise evaluate each period
against the last two rows.  `smaCols p` is the dataframe's `SMA_p` column at
the last row (see `smaColsOf`). -/
def detect_sma_cross (df : Option (List Bar)) (smaCols : ℕ → Option ℚ)
    (periods : List ℕ) (symbol tf : String) (st : AlertState) : AlertState :=
  match df with
  | none => warn "⚠️ Not enough data to check crossovers" st
  | some bars =>
    if bars.length < 2 then warn "⚠️ Not enough data to check crossovers" st
    else
      let last := bars.getLastD default
      let prev := bars.getD (bars.length - 2) default
      periods.foldl (fun s p => detectPeriodStep symbol tf prev last (smaCols p) p s) st

/-! ## Main loop tail: delivery and the top-level exception handler -/

/-- The `except Exception` block of the main loop (the only handler): queue
the unhandled exception as an error notification, flush the alert batch if it
is non-empty, and re-raise.  Returns the final state, the delivered chunks,
and whether the exception is re-raised (process exits with failure). -/
def mainExceptBlock (e : String) (configured : Bool) (st : AlertState) :
    AlertState × List (List Char) × Bool :=
  let st1 := error ("💥 Unhandled exception: " ++ e) st
  let sent := if st1.all_alerts.isEmpty then []
              else safe_send_telegram_bulk_alerts configured st1.all_alerts
  (st1, sent, true)

/-- The tail of the `try` block after all rows are processed: optionally send
the queued logs, send the alert batch when non-empty (else queue a "no
alerts" log line), queue the completion log line.  Returns the final state,
the delivered chunks, and `false` (no exception re-raised). -/
def mainSuccessTail (configured sendTest : Bool) (st : AlertState) :
    AlertState × List (List Char) × Bool :=
  let sentLogs := if sendTest && !st.all_logs.isEmpty
                  then safe_send_telegram_bulk_logs configured st.all_logs else []
  let sentAlerts := if st.all_alerts.isEmpty then []
                    else safe_send_telegram_bulk_alerts configured st.all_alerts
  let st1 := if st.all_alerts.isEmpty
             then log_and_queue "✅ No alerts detected this run." st else st
  (log_and_queue "✅ Run completed successfully" st1, sentLogs ++ sentAlerts, false)

/-- The whole `try/except`: the loop body either completes with a state or
raises with a message and the state at the raise point; the single top-level
handler catches the latter case. -/
def mainRun (body : Except (String × AlertState) AlertState)
    (configured sendTest : Bool) : AlertState × List (List Char) × Bool :=
  match body with
  | Except.ok st => mainSuccessTail configured sendTest st
  | Except.error (e, st) => mainExceptBlock e configured st

/-- The spec's "lies strictly between `a` and `b` (in either order)". -/
def StrictlyBetween (x a b : ℚ) : Prop :=
  (a < x ∧ x < b) ∨ (b < x ∧ x < a)

instance (x a b : ℚ) : Decidable (StrictlyBetween x a b) := by
  unfold StrictlyBetween; infer_instance

/-! ## Helper lemmas -/

theorem crossedStrict_true_iff (a s b : ℚ) :
    crossedStrict a (some s) b = true ↔ StrictlyBetween s a b := by
  simp only [crossedStrict, Bool.or_eq_true, Bool.and_eq_true, decide_eq_true_eq,
    gt_iff_lt, StrictlyBetween]
  tauto

theorem crossed_any_iff (prev last : Bar) (s : ℚ) :
    (crossed_prev prev (some s) || crossed_last last (some s)
      || crossed_gap prev last (some s)) = true
    ↔ (StrictlyBetween s prev.Open prev.Close ∨ StrictlyBetween s last.Open last.Close
        ∨ StrictlyBetween s prev.Close last.Open) := by
  simp [crossed_prev, crossed_last, crossed_gap, crossedStrict_true_iff, or_assoc]

theorem chunkLoop_join (l : List Char) : (chunkLoop l).flatten = l := by
  induction l using chunkLoop.induct with
  | case1 => rw [chunkLoop]; simp
  | case2 l h ih =>
    rw [chunkLoop, dif_neg h]
    simp [ih, List.take_append_drop]

theorem chunkLoop_length_le (l : List Char) (c : List Char) (hc : c ∈ chunkLoop l) :
    c.length ≤ TELEGRAM_LIMIT := by
  induction l using chunkLoop.induct with
  | case1 => rw [chunkLoop] at hc; simp at hc
  | case2 l h ih =>
    rw [chunkLoop, dif_neg h] at hc
    rcases List.mem_cons.mp hc with rfl | hmem
    · simpa using Nat.min_le_left _ _
    · exact ih hmem

theorem sum_take_drop (closes : List ℚ) (n : ℕ) :
    ∀ a : ℕ, a + n ≤ closes.length →
      ((closes.drop a).take n).sum = ∑ j in Finset.range n, closes.getD (a + j) 0 := by
  induction n with
  | zero => intro a _; simp
  | succ n ih =>
    intro a h
    have ha : a < closes.length := by omega
    rw [List.drop_eq_getElem_cons ha, List.take_succ_cons, List.sum_cons,
      Finset.sum_range_succ', ih (a + 1) (by omega)]
    have h0 : closes.getD (a + 0) 0 = closes[a] := by
      simpa using List.getD_eq_getElem closes 0 ha
    rw [h0, add_comm]
    congr 1
    refine Finset.sum_congr rfl fun j _ => ?_
    congr 1
    omega

theorem add_sma_getD (closes : List ℚ) (p i : ℕ) (hi : i < closes.length) :
    (add_sma closes p).getD i none = smaAt closes p i := by
  have hget : (add_sma closes p)[i]? = some (smaAt closes p i) := by
    simp [add_sma, List.getElem?_map, List.getElem?_range, hi]
  rw [List.getD_eq_getElem?_getD, hget]
  rfl

theorem emaScan_length (a v : ℚ) (cs : List ℚ) :
    (emaScan a v cs).length = cs.length := by
  induction cs generalizing v with
  | nil => rfl
  | cons c cs ih => simp [emaScan, ih]

theorem emaScan_getD (a : ℚ) :
    ∀ (cs : List ℚ) (v : ℚ) (j : ℕ), j < cs.length →
      (emaScan a v cs).getD j 0
        = a * cs.getD j 0 + (1 - a) * ((v :: emaScan a v cs).getD j 0) := by
  intro cs
  induction cs with
  | nil => intro v j hj; simp at hj
  | cons c cs ih =>
    intro v j hj
    cases j with
    | zero => simp [emaScan]
    | succ k =>
      have hk : k < cs.length := by simpa using hj
      simpa [emaScan] using ih (a * c + (1 - a) * v) k hk

theorem detectPeriodStep_none {symbol tf : String} {prev last : Bar}
    {sma : Option ℚ} {p : ℕ} {st : AlertState}
    (hev : detectPeriodEvent symbol tf prev last sma p st.alert_cache = none) :
    detectPeriodStep symbol tf prev last sma p st = st := by
  rw [detectPeriodStep, hev]

theorem detectPeriodStep_some {symbol tf : String} {prev last : Bar}
    {sma : Option ℚ} {p : ℕ} {st : AlertState} {e : CrossoverEvent}
    (hev : detectPeriodEvent symbol tf prev last sma p st.alert_cache = some e) :
    detectPeriodStep symbol tf prev last sma p st
      = { st with all_alerts := st.all_alerts ++ [renderEvent e],
                  alert_cache := st.alert_cache ++ [key symbol tf p] } := by
  rw [detectPeriodStep, hev]

theorem detectPeriodEvent_cached {symbol tf : String} {prev last : Bar}
    {sma : Option ℚ} {p : ℕ} {cache : List String}
    (hk : key symbol tf p ∈ cache) :
    detectPeriodEvent symbol tf prev last sma p cache = none := by
  unfold detectPeriodEvent
  rw [if_pos hk]

theorem detectPeriodEvent_isSome_iff (symbol tf : String) (prev last : Bar)
    (s : ℚ) (p : ℕ) (cache : List String) (hk : key symbol tf p ∉ cache) :
    (detectPeriodEvent symbol tf prev last (some s) p cache).isSome = true
    ↔ (StrictlyBetween s prev.Open prev.Close ∨ StrictlyBetween s last.Open last.Close
        ∨ StrictlyBetween s prev.Close last.Open) := by
  unfold detectPeriodEvent
  rw [if_neg hk]
  by_cases hc : (crossed_prev prev (some s) || crossed_last last (some s)
      || crossed_gap prev last (some s)) = true
  · rw [if_pos hc]
    simpa using (crossed_any_iff prev last s).mp hc
  · rw [if_neg hc]
    simp only [Option.isSome_none, Bool.false_eq_true, false_iff]
    exact fun hor => hc ((crossed_any_iff prev last s).mpr hor)

theorem detectPeriodStep_emits_iff (symbol tf : String) (prev last : Bar)
    (p : ℕ) (s : ℚ) (st : AlertState) (hk : key symbol tf p ∉ st.alert_cache) :
    ((detectPeriodStep symbol tf prev last (some s) p st).all_alerts.length
        = st.all_alerts.length + 1)
    ↔ (StrictlyBetween s prev.Open prev.Close ∨ StrictlyBetween s last.Open last.Close
        ∨ StrictlyBetween s prev.Close last.Open) := by
  rw [← detectPeriodEvent_isSome_iff symbol tf prev last s p st.alert_cache hk]
  cases hev : detectPeriodEvent symbol tf prev last (some s) p st.alert_cache with
  | none =>
    rw [detectPeriodStep_none hev]
    simp
  | some e =>
    rw [detectPeriodStep_some hev]
    simp

theorem trend_iff (last : Bar) (s : ℚ) :
    (trend last s = "Bullish" ↔ s < last.Close) ∧
    (trend last s = "Bearish" ↔ last.Close ≤ s) := by
  rw [trend]
  by_cases ht : s < last.Close
  · rw [if_pos ht]
    refine ⟨⟨fun _ => ht, fun _ => rfl⟩, ?_, ?_⟩
    · intro h; exact absurd h (by decide)
    · intro h; exact absurd ht (not_lt.mpr h)
  · rw [if_neg ht]
    refine ⟨⟨?_, ?_⟩, ⟨fun _ => not_lt.mp ht, fun _ => rfl⟩⟩
    · intro h; exact absurd h (by decide)
    · intro h; exact absurd h ht

theorem detectPeriodEvent_some_elim {symbol tf : String} {prev last : Bar}
    {s : ℚ} {p : ℕ} {cache : List String} {e : CrossoverEvent}
    (he : detectPeriodEvent symbol tf prev last (some s) p cache = some e) :
    e = { symbol := symbol, tf := tf, period := p, trendLabel := trend last s,
          gapFlag := crossed_gap prev last (some s), lastBar := last,
          smaValue := s } := by
  unfold detectPeriodEvent at he
  by_cases hk : key symbol tf p ∈ cache
  · rw [if_pos hk] at he; exact absurd he (by simp)
  · rw [if_neg hk] at he
    by_cases hc : (crossed_prev prev (some s) || crossed_last last (some s)
        || crossed_gap prev last (some s)) = true
    · rw [if_pos hc] at he
      exact (Option.some.inj he).symm
    · rw [if_neg hc] at he; exact absurd he (by simp)

theorem chunkLoop_short (l : List Char) (h : l ≠ [])
    (hle : l.length ≤ TELEGRAM_LIMIT) : chunkLoop l = [l] := by
  rw [chunkLoop, dif_neg h, List.take_of_length_le hle, List.drop_eq_nil_of_le hle,
    chunkLoop]
  simp

/-! ## Claim theorems -/

/-- C4: for a positive period `p`, the `add_sma` rolling-mean column is
undefined at every index `i < p - 1` and, at every in-range index
`i ≥ p - 1`, equals the arithmetic mean of the closes at indices
`i - p + 1` through `i`. -/
theorem add_sma_spec (closes : List ℚ) (p i : ℕ) (hp : 0 < p)
    (hi : i < closes.length) :
    (add_sma closes p).getD i none
      = if i < p - 1 then none
        else some ((∑ j in Finset.Icc (i + 1 - p) i, closes.getD j 0) / (p : ℚ)) := by
  rw [add_sma_getD closes p i hi, smaAt]
  by_cases hw : i + 1 < p
  · rw [if_pos hw, if_pos (by omega)]
  · rw [if_neg hw, if_neg (by omega)]
    have hap : (i + 1 - p) + p ≤ closes.length := by omega
    rw [sum_take_drop closes p (i + 1 - p) hap, ← Nat.Ico_succ_right,
      Finset.sum_Ico_eq_sum_range]
    have hcount : i + 1 - (i + 1 - p) = p := by omega
    rw [hcount]

/-- C4 witness: `add_sma` over closes `[1, 2, 3]` with period 2, at the last
index, is the mean of the last two closes. -/
theorem add_sma_spec_witness :
    (add_sma [1, 2, 3] 2).getD 2 none
      = if 2 < 2 - 1 then none
        else some ((∑ j in Finset.Icc (2 + 1 - 2) 2, [(1 : ℚ), 2, 3].getD j 0) / (2 : ℚ)) :=
  add_sma_spec [1, 2, 3] 2 2 (by decide) (by decide)

/-- C5: the spec-modelled EXPONENTIAL indicator is defined at every index
(same length as the closes, no warm-up gap), starts at `value[0] = close[0]`,
and satisfies `value[i] = (2/(P+1))·close[i] + (1 - 2/(P+1))·value[i-1]` at
every later index. -/
theorem add_ema_spec (closes : List ℚ) (p : ℕ) :
    (add_ema closes p).length = closes.length ∧
    (add_ema closes p).getD 0 0 = closes.getD 0 0 ∧
    ∀ i, 0 < i → i < closes.length →
      (add_ema closes p).getD i 0
        = (2 / ((p : ℚ) + 1)) * closes.getD i 0
          + (1 - 2 / ((p : ℚ) + 1)) * (add_ema closes p).getD (i - 1) 0 := by
  match closes with
  | [] =>
    refine ⟨rfl, rfl, fun i h1 h2 => ?_⟩
    simp at h2
  | c :: cs =>
    refine ⟨by simp [add_ema, emaScan_length], rfl, fun i h1 h2 => ?_⟩
    cases i with
    | zero => omega
    | succ k =>
      have hk : k < cs.length := by simpa using h2
      have hstep := emaScan_getD (2 / ((p : ℚ) + 1)) cs c k hk
      simpa [add_ema] using hstep

/-- C5 witness: the EMA of closes `[1, 9]` with period 3 satisfies the
recurrence at index 1. -/
theorem add_ema_spec_witness :
    (add_ema [1, 9] 3).getD 1 0
      = (2 / ((3 : ℚ) + 1)) * [(1 : ℚ), 9].getD 1 0
        + (1 - 2 / ((3 : ℚ) + 1)) * (add_ema [1, 9] 3).getD (1 - 1) 0 :=
  (add_ema_spec [1, 9] 3).2.2 1 (by decide) (by decide)

/-- C9: when the alert batch is delivered, the notification strings are
joined with a blank-line separator (two newlines) into one text, and that
text is sent as the consecutive chunks of the slicing loop, each chunk of
length at most 4000 characters. -/
theorem alerts_chunking_spec (messages : List String) :
    safe_send_telegram_bulk_alerts true messages
      = chunkLoop (pyJoin "\n\n" messages).toList ∧
    ∀ c ∈ safe_send_telegram_bulk_alerts true messages, c.length ≤ 4000 := by
  refine ⟨rfl, fun c hc => ?_⟩
  rw [safe_send_telegram_bulk_alerts, if_pos rfl] at hc
  exact chunkLoop_length_le _ _ hc

/-- C9 witness: the batch `["hi", "yo"]` is joined to `"hi\n\nyo"`, delivered
as a single chunk of length 6 ≤ 4000. -/
theorem alerts_chunking_spec_witness :
    "hi\n\nyo".toList ∈ safe_send_telegram_bulk_alerts true ["hi", "yo"] ∧
    ("hi\n\nyo".toList).length ≤ 4000 := by
  have hmem : "hi\n\nyo".toList ∈ safe_send_telegram_bulk_alerts true ["hi", "yo"] := by
    rw [safe_send_telegram_bulk_alerts, if_pos rfl,
      show pyJoin "\n\n" ["hi", "yo"] = "hi\n\nyo" from rfl,
      chunkLoop_short _ (by decide) (by decide)]
    exact List.mem_singleton.mpr rfl
  exact ⟨hmem, (alerts_chunking_spec ["hi", "yo"]).2 _ hmem⟩

/-- C10: for every finite joined text, the chunking loop of both Telegram
senders terminates (it is a total function) and its chunks concatenate, in
order, back to exactly the joined text: nothing is dropped, duplicated or
reordered. -/
theorem chunk_reassembly (messages : List String) :
    (safe_send_telegram_bulk_logs true messages).flatten
      = (pyJoin "\n" messages).toList ∧
    (safe_send_telegram_bulk_alerts true messages).flatten
      = (pyJoin "\n\n" messages).toList := by
  constructor
  · rw [safe_send_telegram_bulk_logs, if_pos rfl]; exact chunkLoop_join _
  · rw [safe_send_telegram_bulk_alerts, if_pos rfl]; exact chunkLoop_join _

/-- C8: an exception escaping the per-row loop reaches the single top-level
handler, which appends it to the alert batch as an error notification,
flushes the accumulated alerts (the non-empty guard always passes, since the
error was just appended), and re-raises so the process exits with failure. -/
theorem top_level_handler_spec (e : String) (configured : Bool) (st : AlertState) :
    (∀ sendTest, mainRun (Except.error (e, st)) configured sendTest
        = mainExceptBlock e configured st) ∧
    mainExceptBlock e configured st
      = (error ("💥 Unhandled exception: " ++ e) st,
         safe_send_telegram_bulk_alerts configured
           (st.all_alerts ++ ["❌ ERROR: " ++ ("💥 Unhandled exception: " ++ e)]),
         true) := by
  refine ⟨fun _ => rfl, ?_⟩
  rw [mainExceptBlock]
  simp [error]

/-- C1: for a series of at least 2 bars whose SMA value at the last bar is
defined and whose dedup key is not cached, `detect_sma_cross` emits a
crossover event if and only if the indicator value lies strictly between the
previous bar's open and close, or strictly between the last bar's open and
close, or strictly between the previous bar's close and the last bar's open
(each in either order); a value exactly equal to a bound never satisfies a
comparison. -/
theorem detect_emits_iff (symbol tf : String) (bars : List Bar) (p : ℕ)
    (s : ℚ) (st : AlertState) (h2 : 2 ≤ bars.length)
    (hs : smaColsOf bars p = some s)
    (hk : key symbol tf p ∉ st.alert_cache) :
    ((detect_sma_cross (some bars) (smaColsOf bars) [p] symbol tf st).all_alerts.length
        = st.all_alerts.length + 1
      ↔ (StrictlyBetween s (bars.getD (bars.length - 2) default).Open
            (bars.getD (bars.length - 2) default).Close
          ∨ StrictlyBetween s (bars.getLastD default).Open (bars.getLastD default).Close
          ∨ StrictlyBetween s (bars.getD (bars.length - 2) default).Close
              (bars.getLastD default).Open)) ∧
    ∀ a b : ℚ, s = a ∨ s = b → crossedStrict a (some s) b = false := by
  constructor
  · have hnot : ¬ bars.length < 2 := by omega
    simp only [detect_sma_cross, if_neg hnot, List.foldl_cons, List.foldl_nil]
    rw [hs]
    exact detectPeriodStep_emits_iff symbol tf _ _ p s st hk
  · rintro a b (rfl | rfl) <;> simp [crossedStrict, lt_irrefl]

/-- C1 witness: two bars `(open 100, close 102)` then `(open 108, close 110)`
with period 2 give an SMA of 106 at the last bar; the gap test fires and one
event is emitted. -/
theorem detect_emits_iff_witness :
    (detect_sma_cross (some [⟨0, 100, 0, 0, 102, 0⟩, ⟨1, 108, 0, 0, 110, 0⟩])
        (smaColsOf [⟨0, 100, 0, 0, 102, 0⟩, ⟨1, 108, 0, 0, 110, 0⟩]) [2] "X" "5"
        ⟨[], [], []⟩).all_alerts.length = ([] : List String).length + 1
    ↔ (StrictlyBetween 106 (100 : ℚ) 102 ∨ StrictlyBetween 106 (108 : ℚ) 110
        ∨ StrictlyBetween 106 (102 : ℚ) 108) :=
  (detect_emits_iff "X" "5" [⟨0, 100, 0, 0, 102, 0⟩, ⟨1, 108, 0, 0, 110, 0⟩] 2 106
    ⟨[], [], []⟩ (by decide) (by norm_num [smaColsOf, smaAt]) (by decide)).1

/-- C2: whenever an event is emitted, its reference bar and indicator value
are the last bar and its SMA value, and the direction label is "Bullish"
exactly when the last close is strictly greater than the indicator value,
"Bearish" otherwise (equality included) -- independently of which boundary
tests fired. -/
theorem direction_spec (symbol tf : String) (prev last : Bar) (p : ℕ)
    (cache : List String) (s : ℚ) (e : CrossoverEvent)
    (he : detectPeriodEvent symbol tf prev last (some s) p cache = some e) :
    e.lastBar = last ∧ e.smaValue = s ∧
    (e.trendLabel = "Bullish" ↔ s < last.Close) ∧
    (e.trendLabel = "Bearish" ↔ last.Close ≤ s) := by
  have hrec := detectPeriodEvent_some_elim he
  subst hrec
  exact ⟨rfl, rfl, (trend_iff last s).1, (trend_iff last s).2⟩

/-- C2 witness: in the gap scenario the emitted event carries the last bar,
the indicator value 105, and direction "Bullish" since 110 > 105. -/
theorem direction_spec_witness :
    (trend ⟨1, 108, 0, 0, 110, 0⟩ 105 = "Bullish" ↔ (105 : ℚ) < 110) ∧
    (trend ⟨1, 108, 0, 0, 110, 0⟩ 105 = "Bearish" ↔ (110 : ℚ) ≤ 105) :=
  ⟨(direction_spec "X" "5" ⟨0, 100, 0, 0, 102, 0⟩ ⟨1, 108, 0, 0, 110, 0⟩ 20 [] 105
      _ rfl).2.2.1,
   (direction_spec "X" "5" ⟨0, 100, 0, 0, 102, 0⟩ ⟨1, 108, 0, 0, 110, 0⟩ 20 [] 105
      _ rfl).2.2.2⟩

/-- C3: per dedup key, at most one event per run: a cached key makes the
detector skip entirely; an emitted event appends exactly one message and
records the key; and the per-key step is idempotent, so the same key and
two-bar window yield exactly one event across two calls. -/
theorem dedup_single_event (symbol tf : String) (prev last : Bar)
    (sma : Option ℚ) (p : ℕ) (st : AlertState) :
    (key symbol tf p ∈ st.alert_cache →
      detectPeriodStep symbol tf prev last sma p st = st) ∧
    (∀ e, detectPeriodEvent symbol tf prev last sma p st.alert_cache = some e →
      (detectPeriodStep symbol tf prev last sma p st).all_alerts
          = st.all_alerts ++ [renderEvent e] ∧
      key symbol tf p ∈ (detectPeriodStep symbol tf prev last sma p st).alert_cache) ∧
    detectPeriodStep symbol tf prev last sma p
        (detectPeriodStep symbol tf prev last sma p st)
      = detectPeriodStep symbol tf prev last sma p st := by
  refine ⟨fun hk => detectPeriodStep_none (detectPeriodEvent_cached hk), ?_, ?_⟩
  · intro e he
    rw [detectPeriodStep_some he]
    exact ⟨rfl, by simp⟩
  · cases hev : detectPeriodEvent symbol tf prev last sma p st.alert_cache with
    | none =>
      rw [detectPeriodStep_none hev, detectPeriodStep_none hev]
    | some e =>
      rw [detectPeriodStep_some hev]
      exact detectPeriodStep_none (detectPeriodEvent_cached (by simp))

/-- C3 witness: in the gap scenario the event is emitted, exactly one message
is appended, the key is recorded, and a second identical call changes
nothing. -/
theorem dedup_single_event_witness :
    (detectPeriodStep "X" "5" ⟨0, 100, 0, 0, 102, 0⟩ ⟨1, 108, 0, 0, 110, 0⟩
        (some 105) 20 ⟨[], [], []⟩).all_alerts.length = 1 ∧
    key "X" "5" 20 ∈ (detectPeriodStep "X" "5" ⟨0, 100, 0, 0, 102, 0⟩
        ⟨1, 108, 0, 0, 110, 0⟩ (some 105) 20 ⟨[], [], []⟩).alert_cache ∧
    detectPeriodStep "X" "5" ⟨0, 100, 0, 0, 102, 0⟩ ⟨1, 108, 0, 0, 110, 0⟩
        (some 105) 20 (detectPeriodStep "X" "5" ⟨0, 100, 0, 0, 102, 0⟩
          ⟨1, 108, 0, 0, 110, 0⟩ (some 105) 20 ⟨[], [], []⟩)
      = detectPeriodStep "X" "5" ⟨0, 100, 0, 0, 102, 0⟩ ⟨1, 108, 0, 0, 110, 0⟩
          (some 105) 20 ⟨[], [], []⟩ := by
  have h := dedup_single_event "X" "5" ⟨0, 100, 0, 0, 102, 0⟩ ⟨1, 108, 0, 0, 110, 0⟩
    (some 105) 20 ⟨[], [], []⟩
  refine ⟨?_, (h.2.1 _ rfl).2, h.2.2⟩
  rw [(h.2.1 _ rfl).1]
  rfl

/-- C6: a missing series or one with fewer than 2 bars makes the detector
queue a warning and stop, touching neither the cache nor the alerts
otherwise; an undefined (`NaN`) indicator value fails every strict
comparison, so no event and no state change for that spec; and a period
exceeding the history length leaves the SMA at the last bar undefined. -/
theorem insufficient_data_spec (smaCols : ℕ → Option ℚ) (periods : List ℕ)
    (symbol tf : String) (st : AlertState) :
    detect_sma_cross none smaCols periods symbol tf st
        = warn "⚠️ Not enough data to check crossovers" st ∧
    (∀ bars : List Bar, bars.length < 2 →
      detect_sma_cross (some bars) smaCols periods symbol tf st
        = warn "⚠️ Not enough data to check crossovers" st) ∧
    (∀ (prev last : Bar) (p : ℕ) (cache : List String),
      detectPeriodEvent symbol tf prev last none p cache = none) ∧
    (∀ (prev last : Bar) (p : ℕ) (st' : AlertState),
      detectPeriodStep symbol tf prev last none p st' = st') ∧
    (∀ (bars : List Bar) (p : ℕ), 0 < bars.length → bars.length < p →
      smaColsOf bars p = none) := by
  have hnone : ∀ (prev last : Bar) (p : ℕ) (cache : List String),
      detectPeriodEvent symbol tf prev last none p cache = none := by
    intro prev last p cache
    unfold detectPeriodEvent
    split
    · rfl
    · rw [if_neg]
      simp [crossed_prev, crossed_last, crossed_gap, crossedStrict]
  refine ⟨rfl, ?_, hnone, ?_, ?_⟩
  · intro bars h
    simp only [detect_sma_cross]
    rw [if_pos h]
  · intro prev last p st'
    exact detectPeriodStep_none (hnone prev last p st'.alert_cache)
  · intro bars p h1 h2
    simp only [smaColsOf, smaAt]
    rw [if_pos (by omega)]

/-- C6 witness: a one-bar series yields only the warning, a `NaN` SMA yields
no event, and a period longer than the history leaves the SMA undefined. -/
theorem insufficient_data_spec_witness :
    detect_sma_cross (some [⟨0, 1, 1, 1, 1, 1⟩]) (fun _ => none) [7] "W" "1"
        ⟨[], [], []⟩
      = warn "⚠️ Not enough data to check crossovers" ⟨[], [], []⟩ ∧
    detectPeriodEvent "W" "1" ⟨0, 1, 1, 1, 1, 1⟩ ⟨0, 1, 1, 1, 1, 1⟩ none 7 [] = none ∧
    smaColsOf [⟨0, 1, 1, 1, 1, 1⟩] 2 = none := by
  have h := insufficient_data_spec (fun _ => none) [7] "W" "1" ⟨[], [], []⟩
  exact ⟨h.2.1 _ (by decide), h.2.2.1 _ _ 7 [], h.2.2.2.2 _ 2 (by decide) (by decide)⟩

/-- C7: an emitted event carries the gap flag (rendered as the
" (Gap detected)" annotation) exactly when the indicator value lies strictly
between the previous bar's close and the last bar's open, whatever the other
tests did; in the concrete gap-only scenario (prev 100/102, last 108/110,
indicator 105) exactly one UP event with the gap flag set is produced. -/
theorem gap_flag_spec (symbol tf : String) (prev last : Bar) (p : ℕ)
    (cache : List String) (s : ℚ) (e : CrossoverEvent)
    (he : detectPeriodEvent symbol tf prev last (some s) p cache = some e) :
    (e.gapFlag = true ↔ StrictlyBetween s prev.Close last.Open) ∧
    (gap_info e.gapFlag = " (Gap detected)" ↔ e.gapFlag = true) ∧
    detectPeriodEvent "X" "5" ⟨0, 100, 0, 0, 102, 0⟩ ⟨1, 108, 0, 0, 110, 0⟩
        (some 105) 20 []
      = some { symbol := "X", tf := "5", period := 20, trendLabel := "Bullish",
               gapFlag := true, lastBar := ⟨1, 108, 0, 0, 110, 0⟩,
               smaValue := 105 } ∧
    (detect_sma_cross (some [⟨0, 100, 0, 0, 102, 0⟩, ⟨1, 108, 0, 0, 110, 0⟩])
        (fun _ => some 105) [20] "X" "5" ⟨[], [], []⟩).all_alerts.length = 1 := by
  have hrec := detectPeriodEvent_some_elim he
  subst hrec
  refine ⟨?_, ?_, by decide, by decide⟩
  · simpa [crossed_gap] using crossedStrict_true_iff prev.Close s last.Open
  · rw [gap_info]
    cases hg : crossed_gap prev last (some s) <;> simp

/-- C7 witness: in the gap-only scenario the emitted event's gap flag is set
iff 105 lies strictly between 102 and 108 (it does). -/
theorem gap_flag_spec_witness :
    (crossed_gap ⟨0, 100, 0, 0, 102, 0⟩ ⟨1, 108, 0, 0, 110, 0⟩ (some 105) = true)
    ↔ StrictlyBetween 105 (102 : ℚ) 108 :=
  (gap_flag_spec "X" "5" ⟨0, 100, 0, 0, 102, 0⟩ ⟨1, 108, 0, 0, 110, 0⟩ 20 [] 105
    _ rfl).1

end EabcMabcA
